import Mathlib

/-!
Verification development for the logistics local-record pipeline
(`src/main.cpp`): configuration loading, a SQLite-backed key/value store,
libsodium secretbox encryption, a future-based task pool, and the `main`
orchestration, shallowly embedded as executable Lean definitions.
-/

/-- Byte strings are lists of byte values. -/
abbrev Bytes := List Nat

/-- C strings stop at the first NUL byte.  `sqlite3_bind_text` is called with
length `-1` in the source (lines 58-59, 73), which makes SQLite read the
argument with `strlen`, so any key or value passed to the store is truncated
at its first zero byte. -/
def truncAtNul (s : Bytes) : Bytes := s.takeWhile (fun b => !(b == 0))

/-- Byte form of a Lean string literal appearing in the source. -/
def bytesOf (s : String) : Bytes := s.toList.map Char.toNat

namespace LocalStorage

/-- Error kinds of the storage layer.  The first four correspond to the four
`throw` sites of `InitializeDatabase`, `Store` and `Retrieve`
(src/main.cpp lines 41, 48, 56/62/71, 79).  `invalidState` comes from the
spec's storage-error taxonomy (§4.2, §7); the source has no throw site that
produces it. -/
inductive StorageErr where
  | openFailed
  | tableCreateFailed
  | prepareFailed
  | insertFailed
  | notFound
  | invalidState
  deriving DecidableEq, Repr

/-- Outcome flags of the SQLite statement API for one `Store`/`Retrieve`
call: whether `sqlite3_prepare_v2` and `sqlite3_step` themselves succeed
(given a non-null handle).  The success path of a healthy database is
`okIO`. -/
structure SqlIO where
  prepOk : Bool
  stepOk : Bool
  deriving DecidableEq, Repr

/-- The healthy-I/O instance. -/
def okIO : SqlIO := ⟨true, true⟩

/-- The rows of the `storage` table, in insertion order. -/
structure SqliteDb where
  rows : List (Bytes × Bytes)
  deriving DecidableEq, Repr

/-- The global `sqlite3* db` handle (src/main.cpp line 37): either null
(`none`) — its zero-initialized state before `InitializeDatabase`, and its
state after `CloseDatabase` — or an open database. -/
structure LocalState where
  db : Option SqliteDb
  deriving DecidableEq, Repr

/-- Rows visible in a state (empty for a null handle). -/
def rowsOf (s : LocalState) : List (Bytes × Bytes) :=
  match s.db with
  | none => []
  | some d => d.rows

/-- `LocalStorage::Store` (src/main.cpp lines 52-65): prepares
`INSERT OR REPLACE INTO storage (key, value) VALUES (?, ?)`, binds `key`
and `data` as C strings (hence `truncAtNul`), steps, and finalizes.
On a null handle `sqlite3_prepare_v2` is an API misuse and fails, which the
source reports with the same generic `Failed to prepare SQLite statement`
error; there is no open/closed state tracking of its own.  `INSERT OR
REPLACE` on the `key TEXT PRIMARY KEY` schema deletes any row with the same
key and inserts the new one. -/
def Store (io : SqlIO) (s : LocalState) (key data : Bytes) :
    Except StorageErr Unit × LocalState :=
  match s.db with
  | none => (.error .prepareFailed, s)
  | some d =>
    if io.prepOk = false then (.error .prepareFailed, s)
    else if io.stepOk = false then (.error .insertFailed, s)
    else
      let k := truncAtNul key
      (.ok (), ⟨some ⟨d.rows.filter (fun r => !(r.1 == k)) ++ [(k, truncAtNul data)]⟩⟩)

/-- `LocalStorage::Retrieve` (src/main.cpp lines 67-83): prepares
`SELECT value FROM storage WHERE key = ?`, binds the key as a C string,
and returns the row's value if `sqlite3_step` yields a row; every non-row
outcome takes the `Key not found` branch.  The statement only reads; the
state is returned unchanged in every branch. -/
def Retrieve (io : SqlIO) (s : LocalState) (key : Bytes) :
    Except StorageErr Bytes × LocalState :=
  match s.db with
  | none => (.error .prepareFailed, s)
  | some d =>
    if io.prepOk = false then (.error .prepareFailed, s)
    else
      match d.rows.find? (fun r => r.1 == truncAtNul key) with
      | some r => (.ok r.2, s)
      | none => (.error .notFound, s)

/-- `LocalStorage::CloseDatabase` (src/main.cpp lines 85-90): closes the
handle if non-null and nulls it; the resulting handle is null either way. -/
def CloseDatabase (_s : LocalState) : LocalState := ⟨none⟩

end LocalStorage

namespace Encryption

/-- Libsodium constants for `crypto_secretbox` (XSalsa20-Poly1305). -/
def crypto_secretbox_NONCEBYTES : Nat := 24

/-- Poly1305 tag length. -/
def crypto_secretbox_MACBYTES : Nat := 16

/-- Required secret-key length. -/
def crypto_secretbox_KEYBYTES : Nat := 32

/-- Error kinds of the cipher layer.  `initFailed` is the one throw site in
`EncryptAndAuthenticate` (src/main.cpp line 96); `invalidKeyLength` comes
from the spec's crypto-error taxonomy (§4.1, §7) and has no throw site in
the source. -/
inductive CryptoErr where
  | initFailed
  | invalidKeyLength
  deriving DecidableEq, Repr

/-- The `crypto_secretbox_easy` primitive, abstracted over its two outputs.
Per the libsodium documentation the combined mode writes the Poly1305
authentication tag into the FIRST `crypto_secretbox_MACBYTES` bytes of the
output buffer, followed by the encrypted message, which has exactly the
length of the plaintext.  Both components are functions of the message,
the nonce and the key; the length laws are how the source sizes its buffer
(src/main.cpp line 102). -/
structure SecretboxPrim where
  tag : Bytes → Bytes → Bytes → Bytes
  cipher : Bytes → Bytes → Bytes → Bytes
  tag_len : ∀ m n k, (tag m n k).length = crypto_secretbox_MACBYTES
  cipher_len : ∀ m n k, (cipher m n k).length = m.length

/-- A concrete instance of the primitive's shape, used to evaluate the model
on closed inputs (a stand-in stream transform; the claims settled here
depend only on the layout and lengths any instance shares). -/
def modelPrim : SecretboxPrim where
  tag := fun m n k => List.replicate crypto_secretbox_MACBYTES ((m.sum + n.sum + k.sum + 1) % 256)
  cipher := fun m n k => m.map (fun b => (b + n.sum + k.sum) % 256)
  tag_len := fun _ _ _ => List.length_replicate _ _
  cipher_len := fun _ _ _ => List.length_map _ _

/-- `Encryption::EncryptAndAuthenticate` (src/main.cpp lines 94-110):
fails if `sodium_init` fails; otherwise draws a fresh random nonce of
`crypto_secretbox_NONCEBYTES` bytes (modeled as the `nonce` argument, the
randomness oracle's output), fills a buffer of `crypto_secretbox_MACBYTES +
data.size()` bytes via `crypto_secretbox_easy` (tag, then ciphertext), and
returns nonce ‖ buffer.  The key is handed to the primitive as-is: no
length check is performed — a key shorter than
`crypto_secretbox_KEYBYTES` makes the C code read past the key buffer, but
control flow still reaches the return. -/
def EncryptAndAuthenticate (P : SecretboxPrim) (sodiumOk : Bool)
    (nonce data key : Bytes) : Except CryptoErr Bytes :=
  if sodiumOk = false then .error .initFailed
  else .ok (nonce ++ (P.tag data nonce key ++ P.cipher data nonce key))

end Encryption

namespace ThreadPool

/-- `ThreadPool::AddTask` (src/main.cpp lines 116-118): appends to the global
`tasks` vector.  A task is modeled by its eventual outcome: `ok` for a job
that returns, `error e` for a job whose body throws `e`. -/
def AddTask {ε : Type} (tasks : List (Except ε Unit)) (t : Except ε Unit) :
    List (Except ε Unit) :=
  tasks ++ [t]

/-- The `for (auto& task : tasks) task.get();` loop of `WaitForAll`
(src/main.cpp lines 121-123): `get` on a future whose job threw rethrows
that exception, so the loop returns at the first failed task. -/
def waitLoop {ε : Type} : List (Except ε Unit) → Except ε Unit
  | [] => .ok ()
  | .ok _ :: rest => waitLoop rest
  | .error e :: _ => .error e

/-- `ThreadPool::WaitForAll` (src/main.cpp lines 120-125): gets every future
in order; `tasks.clear()` runs only if no `get` threw — when a task failed,
the exception propagates and the vector is left as it was. -/
def WaitForAll {ε : Type} (tasks : List (Except ε Unit)) :
    Except ε Unit × List (Except ε Unit) :=
  match waitLoop tasks with
  | .ok _ => (.ok (), [])
  | .error e => (.error e, tasks)

end ThreadPool

/-- Error kinds of the configuration layer: the two throw sites of
`ConfigManager::LoadConfig` and `ConfigManager::Get` (src/main.cpp lines
23, 30) for the two keys `main` looks up. -/
inductive ConfigErr where
  | loadFailed
  | dbPathMissing
  | encryptionKeyMissing
  deriving DecidableEq, Repr

/-- The single failure mode of the replication job submitted by `main`
(src/main.cpp lines 144-146): the external `logistics::StoreMetadataInIPFS`
call throwing.  Its exception payload is external to this repository and is
left opaque. -/
inductive TaskErr where
  | publishFailed
  deriving DecidableEq, Repr

/-- Every error that can escape to `main`'s catch block, wrapping each
layer's kind.  `invalidRecord` comes from the spec's validation taxonomy
(§4.4, §7); no code in the source produces it. -/
inductive ProgErr where
  | config (e : ConfigErr)
  | storage (e : LocalStorage.StorageErr)
  | crypto (e : Encryption.CryptoErr)
  | task (e : TaskErr)
  | invalidRecord
  deriving DecidableEq, Repr

/-- The `e.what()` description printed for each error by `main`'s catch
block (src/main.cpp line 153), taken from the corresponding `throw`
site's message.  The table-creation and publish messages carry an
external component (the SQLite `err_msg` / the IPFS exception text)
represented here by their fixed prefix / a placeholder. -/
def ProgErr.describe : ProgErr → String
  | .config .loadFailed => "Failed to load configuration file."
  | .config .dbPathMissing => "Configuration key not found: db_path"
  | .config .encryptionKeyMissing => "Configuration key not found: encryption_key"
  | .storage .openFailed => "Failed to open SQLite database."
  | .storage .tableCreateFailed => "Failed to create table: "
  | .storage .prepareFailed => "Failed to prepare SQLite statement."
  | .storage .insertFailed => "Failed to execute SQLite insert statement."
  | .storage .notFound => "Key not found in SQLite database."
  | .storage .invalidState => "Invalid storage state."
  | .crypto .initFailed => "Libsodium initialization failed."
  | .crypto .invalidKeyLength => "Invalid encryption key length."
  | .task .publishFailed => "IPFS metadata publish failed."
  | .invalidRecord => "Invalid record."

/-- The metadata record built by `main` (src/main.cpp lines 134-138). -/
structure Record where
  product_id : String
  timestamp : String
  location : String
  owner : String
  deriving DecidableEq, Repr

/-- The record `main` hardcodes. -/
def sampleRecord : Record :=
  ⟨"SampleProductID", "2025-01-06T10:00:00Z", "Warehouse A", "Company X"⟩

/-- Model of `Json::Value::toStyledString` applied to the four-field record
(external jsoncpp detail): a deterministic byte serialization of the
fields.  Nothing settled here depends on its exact shape. -/
def serializeRecord (r : Record) : Bytes :=
  bytesOf r.product_id ++ [10] ++ bytesOf r.timestamp ++ [10]
    ++ bytesOf r.location ++ [10] ++ bytesOf r.owner

/-- The `encryption_key` string the configuration supplies
(content external; only its presence matters to the claims). -/
def configEncryptionKey : Bytes := List.replicate 32 0

/-- The storage key `main` writes under (src/main.cpp line 142). -/
def sampleKey : Bytes := bytesOf "SampleKey"

/-- The environment of one process run: which of the external operations
`main` invokes succeed.  Each flag corresponds to one failure point of
src/main.cpp lines 128-151, in program order. -/
structure Env where
  configOk : Bool
  hasDbPath : Bool
  dbOpenOk : Bool
  tableOk : Bool
  hasEncKey : Bool
  sodiumOk : Bool
  storePrep : Bool
  storeStep : Bool
  publishOk : Bool
  deriving DecidableEq, Repr

/-- The all-healthy environment. -/
def goodEnv : Env := ⟨true, true, true, true, true, true, true, true, true⟩

/-- Observable events of one run of `main`'s try block, in the order the
corresponding source lines complete. -/
inductive Ev where
  | configLoad
  | dbInit
  | encrypted
  | storePut
  | submit
  | waitAll
  | closedDb
  deriving DecidableEq, Repr

/-- Everything strictly before the first occurrence of `e` in a trace. -/
def eventsBefore (tr : List Ev) (e : Ev) : List Ev :=
  tr.takeWhile (fun x => !(x == e))

/-- `a` precedes `b` in the trace: wherever `b` occurs, `a` has already
occurred. -/
def occursBefore (a b : Ev) (tr : List Ev) : Prop :=
  b ∈ tr → a ∈ eventsBefore tr b

instance (a b : Ev) (tr : List Ev) : Decidable (occursBefore a b tr) := by
  unfold occursBefore; infer_instance

/-- The result of one run of `main`'s try block. -/
structure RunResult where
  outcome : Except ProgErr Unit
  finalStore : LocalStorage.LocalState
  trace : List Ev
  pending : List (Except TaskErr Unit)
  deriving Repr

/-- The body of `main`'s try block (src/main.cpp lines 130-151), with the
hardcoded metadata generalized to `rec`, the secretbox primitive and its
random nonce passed explicitly, and `db0` the rows already in the SQLite
file (`CREATE TABLE IF NOT EXISTS` preserves them).  Control flow follows
the source line by line: `LoadConfig` (130), `InitializeDatabase` (131,
which reads `db_path`, opens the database and creates the table),
`Get("encryption_key")` plus `EncryptAndAuthenticate` (141), `Store`
(142), `AddTask` (144), `WaitForAll` (148), `CloseDatabase` (149); the
first exception aborts the rest of the block. -/
def mainBody (env : Env) (P : Encryption.SecretboxPrim) (nonce : Bytes)
    (rec : Record) (db0 : List (Bytes × Bytes)) : RunResult :=
  if env.configOk = false then
    ⟨.error (.config .loadFailed), ⟨none⟩, [], []⟩
  else if env.hasDbPath = false then
    ⟨.error (.config .dbPathMissing), ⟨none⟩, [.configLoad], []⟩
  else if env.dbOpenOk = false then
    ⟨.error (.storage .openFailed), ⟨none⟩, [.configLoad], []⟩
  else if env.tableOk = false then
    ⟨.error (.storage .tableCreateFailed), ⟨some ⟨db0⟩⟩, [.configLoad], []⟩
  else if env.hasEncKey = false then
    ⟨.error (.config .encryptionKeyMissing), ⟨some ⟨db0⟩⟩, [.configLoad, .dbInit], []⟩
  else
    match Encryption.EncryptAndAuthenticate P env.sodiumOk nonce
        (serializeRecord rec) configEncryptionKey with
    | .error ce =>
      ⟨.error (.crypto ce), ⟨some ⟨db0⟩⟩, [.configLoad, .dbInit], []⟩
    | .ok envelope =>
      match LocalStorage.Store ⟨env.storePrep, env.storeStep⟩ ⟨some ⟨db0⟩⟩
          sampleKey envelope with
      | (.error se, s1) =>
        ⟨.error (.storage se), s1, [.configLoad, .dbInit, .encrypted], []⟩
      | (.ok _, s1) =>
        let pend := ThreadPool.AddTask []
          (if env.publishOk then .ok () else .error TaskErr.publishFailed)
        match ThreadPool.WaitForAll pend with
        | (.error te, pend1) =>
          ⟨.error (.task te), s1,
            [.configLoad, .dbInit, .encrypted, .storePut, .submit], pend1⟩
        | (.ok _, pend1) =>
          ⟨.ok (), LocalStorage.CloseDatabase s1,
            [.configLoad, .dbInit, .encrypted, .storePut, .submit, .waitAll, .closedDb],
            pend1⟩

/-- What the process shows at exit. -/
structure MainResult where
  exitCode : Nat
  stdoutLines : List String
  stderrLines : List String
  deriving Repr

/-- `main` around the try block (src/main.cpp lines 128-159): the success
path prints the completion acknowledgment; any caught exception is printed
with its description on stderr; BOTH paths fall through to `return 0`
(line 158) — there is no non-zero exit. -/
def runMain (env : Env) (P : Encryption.SecretboxPrim) (nonce : Bytes)
    (rec : Record) (db0 : List (Bytes × Bytes)) : MainResult :=
  match (mainBody env P nonce rec db0).outcome with
  | .ok _ => ⟨0, ["Execution completed successfully."], []⟩
  | .error e => ⟨0, [], ["Error during execution: " ++ e.describe]⟩

open LocalStorage

instance {ε α : Type} [DecidableEq ε] [DecidableEq α] : DecidableEq (Except ε α) :=
  fun a b =>
    match a, b with
    | .ok x, .ok y =>
      if h : x = y then .isTrue (by rw [h])
      else .isFalse (fun hc => h (Except.ok.inj hc))
    | .error e, .error f =>
      if h : e = f then .isTrue (by rw [h])
      else .isFalse (fun hc => h (Except.error.inj hc))
    | .ok _, .error _ => .isFalse (fun hc => Except.noConfusion hc)
    | .error _, .ok _ => .isFalse (fun hc => Except.noConfusion hc)

theorem truncAtNul_of_not_mem {v : Bytes} (h : 0 ∉ v) : truncAtNul v = v := by
  refine List.takeWhile_eq_self_iff.mpr (fun b hb => ?_)
  have : b ≠ 0 := fun h0 => h (h0 ▸ hb)
  simp [this]

theorem find?_filter_not {α : Type} (p : α → Bool) (l : List α) :
    (l.filter (fun a => !(p a))).find? p = none := by
  induction l with
  | nil => rfl
  | cons a rest ih =>
    cases hp : p a <;> simp [List.filter_cons, hp, List.find?_cons, ih]

theorem filter_of_filter_not {α : Type} (p : α → Bool) (l : List α) :
    (l.filter (fun a => !(p a))).filter p = [] := by
  induction l with
  | nil => rfl
  | cons a rest ih =>
    cases hp : p a <;> simp [List.filter_cons, hp, ih]

theorem store_open_state (io : SqlIO) (d : SqliteDb) (k v : Bytes)
    (hp : io.prepOk = true) (hs : io.stepOk = true) :
    (Store io ⟨some d⟩ k v).2
      = ⟨some ⟨d.rows.filter (fun r => !(r.1 == truncAtNul k))
          ++ [(truncAtNul k, truncAtNul v)]⟩⟩ := by
  simp [Store, hp, hs]

theorem retrieve_open_result (io : SqlIO) (d : SqliteDb) (k : Bytes)
    (hp : io.prepOk = true) :
    (Retrieve io ⟨some d⟩ k).1
      = match d.rows.find? (fun r => r.1 == truncAtNul k) with
        | some r => .ok r.2
        | none => .error .notFound := by
  cases hf : d.rows.find? (fun r => r.1 == truncAtNul k) with
  | none => simp [Retrieve, hp, hf]
  | some r => simp [Retrieve, hp, hf]

/-- C3 (amended): double upsert on the same key with a NUL-free second value:
`Store k v1; Store k v2; Retrieve k` yields exactly `v2`, and exactly one
row for `k` remains — starting from any open database. -/
theorem store_store_retrieve (d : SqliteDb) (k v1 v2 : Bytes) (h : 0 ∉ v2) :
    (Retrieve okIO (Store okIO (Store okIO ⟨some d⟩ k v1).2 k v2).2 k).1
      = .ok v2 ∧
    ((rowsOf (Store okIO (Store okIO ⟨some d⟩ k v1).2 k v2).2).filter
      (fun r => r.1 == truncAtNul k)).length = 1 := by
  have hv2 : truncAtNul v2 = v2 := truncAtNul_of_not_mem h
  rw [store_open_state okIO d k v1 rfl rfl]
  rw [store_open_state okIO _ k v2 rfl rfl]
  constructor
  · rw [retrieve_open_result okIO _ k rfl]
    simp only [List.find?_append, find?_filter_not, Option.none_or]
    simp [List.find?_cons, hv2]
  · simp only [rowsOf, List.filter_append, filter_of_filter_not]
    simp [List.filter_cons]

/-- C3 witness: a concrete run of the amended upsert property. -/
theorem store_store_retrieve_witness :
    (0 : Nat) ∉ ([2, 3] : Bytes) ∧
    ((Retrieve okIO (Store okIO (Store okIO ⟨some ⟨[]⟩⟩ [107] [1]).2 [107] [2, 3]).2 [107]).1
      = .ok [2, 3] ∧
    ((rowsOf (Store okIO (Store okIO ⟨some ⟨[]⟩⟩ [107] [1]).2 [107] [2, 3]).2).filter
      (fun r => r.1 == truncAtNul [107])).length = 1) :=
  ⟨by decide, store_store_retrieve ⟨[]⟩ [107] [1] [2, 3] (by decide)⟩

/-- C3 counterexample: a value with an embedded zero byte is truncated by the
C-string binding, so `Retrieve` returns the truncated prefix, not `v2`. -/
theorem store_retrieve_nul_counterexample :
    (Retrieve okIO (Store okIO (Store okIO ⟨some ⟨[]⟩⟩ [107] [1]).2 [107] [2, 0, 3]).2 [107]).1
      = .ok [2] ∧
    (Retrieve okIO (Store okIO (Store okIO ⟨some ⟨[]⟩⟩ [107] [1]).2 [107] [2, 0, 3]).2 [107]).1
      ≠ .ok [2, 0, 3] := by
  constructor <;> decide

/-- C8 (amended): with a null database handle — the never-opened state and
the state `CloseDatabase` leaves behind — both `Store` and `Retrieve` fail,
but with the generic statement-preparation error (the SQLite API misuse
surfaced by the source's only prepare-failure branch), not a distinct
`InvalidState` kind: the code keeps no open/closed state of its own. -/
theorem putget_null_handle (io : SqlIO) (s : LocalState) (k v : Bytes) :
    (Store io ⟨none⟩ k v).1 = .error .prepareFailed ∧
    (Retrieve io ⟨none⟩ k).1 = .error .prepareFailed ∧
    (Store io (CloseDatabase s) k v).1 = .error .prepareFailed ∧
    (Retrieve io (CloseDatabase s) k).1 = .error .prepareFailed :=
  ⟨rfl, rfl, rfl, rfl⟩

/-- C8 counterexample: a `get` on the closed store fails, but the error it
fails with is the prepare error, which is not the `InvalidState` kind the
claim requires. -/
theorem putget_invalidstate_counterexample :
    (Retrieve okIO (CloseDatabase ⟨some ⟨[]⟩⟩) [1]).1 = .error .prepareFailed ∧
    StorageErr.prepareFailed ≠ StorageErr.invalidState :=
  ⟨rfl, by decide⟩

/-- C9: `Retrieve` on an open database holding no row for the key fails with
the not-found error. -/
theorem retrieve_never_written (io : SqlIO) (d : SqliteDb) (k : Bytes)
    (hp : io.prepOk = true)
    (h : d.rows.find? (fun r => r.1 == truncAtNul k) = none) :
    (Retrieve io ⟨some d⟩ k).1 = .error .notFound := by
  rw [retrieve_open_result io d k hp, h]

/-- C9 witness: looking up a key in the freshly created empty table. -/
theorem retrieve_never_written_witness :
    okIO.prepOk = true ∧
    (SqliteDb.mk []).rows.find? (fun r => r.1 == truncAtNul [1]) = none ∧
    (Retrieve okIO ⟨some ⟨[]⟩⟩ [1]).1 = .error .notFound :=
  ⟨rfl, rfl, retrieve_never_written okIO ⟨[]⟩ [1] rfl rfl⟩

/-- C10: `Retrieve` returns the store state unchanged in every branch —
null handle, prepare failure, row found, and row absent alike; a read
never inserts, deletes or modifies an entry. -/
theorem retrieve_frame (io : SqlIO) (s : LocalState) (k : Bytes) :
    (Retrieve io s k).2 = s := by
  rcases s with ⟨db⟩
  cases db with
  | none => rfl
  | some d =>
    cases hio : io.prepOk <;>
      cases hf : d.rows.find? (fun r => r.1 == truncAtNul k) <;>
        simp [Retrieve, hio, hf]

/-- C4 (amended): `EncryptAndAuthenticate` fails with the initialization
error exactly when `sodium_init` fails; it performs no key-length
validation — for a key of any length it proceeds to produce an envelope
(reading out of bounds in the C source when the key is shorter than
`crypto_secretbox_KEYBYTES`), and no `InvalidKeyLength` failure exists. -/
theorem encrypt_no_keylength_check (P : Encryption.SecretboxPrim)
    (nonce data key : Bytes) :
    Encryption.EncryptAndAuthenticate P false nonce data key
      = .error .initFailed ∧
    (Encryption.EncryptAndAuthenticate P true nonce data key).isOk = true :=
  ⟨rfl, rfl⟩

/-- C4 counterexample: a 3-byte key is not of the required length, yet
encryption does not fail with `invalidKeyLength` — it returns an
envelope. -/
theorem encrypt_short_key_counterexample :
    ([1, 2, 3] : Bytes).length ≠ Encryption.crypto_secretbox_KEYBYTES ∧
    Encryption.EncryptAndAuthenticate Encryption.modelPrim true
      (List.replicate 24 1) [5] [1, 2, 3] ≠ .error .invalidKeyLength ∧
    (Encryption.EncryptAndAuthenticate Encryption.modelPrim true
      (List.replicate 24 1) [5] [1, 2, 3]).isOk = true :=
  ⟨by decide, by decide, rfl⟩

/-- C5 (amended): with initialization succeeding, the envelope is
nonce ‖ tag ‖ ciphertext — the MAC comes BEFORE the ciphertext in
`crypto_secretbox_easy`'s combined output — with the ciphertext component
exactly as long as the plaintext and the nonce component of the cipher's
fixed nonce length. -/
theorem encrypt_envelope_layout (P : Encryption.SecretboxPrim)
    (nonce data key : Bytes)
    (hn : nonce.length = Encryption.crypto_secretbox_NONCEBYTES)
    (_hk : key.length = Encryption.crypto_secretbox_KEYBYTES) :
    Encryption.EncryptAndAuthenticate P true nonce data key
      = .ok (nonce ++ (P.tag data nonce key ++ P.cipher data nonce key)) ∧
    (P.cipher data nonce key).length = data.length ∧
    (P.tag data nonce key).length = Encryption.crypto_secretbox_MACBYTES ∧
    (nonce ++ (P.tag data nonce key ++ P.cipher data nonce key)).length
      = Encryption.crypto_secretbox_NONCEBYTES
        + (Encryption.crypto_secretbox_MACBYTES + data.length) := by
  refine ⟨rfl, P.cipher_len data nonce key, P.tag_len data nonce key, ?_⟩
  simp [List.length_append, hn, P.cipher_len, P.tag_len]

/-- C5 witness: the layout property evaluated at a concrete
nonce/plaintext/key of the required sizes. -/
theorem encrypt_envelope_layout_witness :
    (List.replicate 24 (0 : Nat)).length = Encryption.crypto_secretbox_NONCEBYTES ∧
    (List.replicate 32 (0 : Nat)).length = Encryption.crypto_secretbox_KEYBYTES ∧
    (Encryption.EncryptAndAuthenticate Encryption.modelPrim true
        (List.replicate 24 0) [1, 2] (List.replicate 32 0)
      = .ok ((List.replicate 24 0)
          ++ (Encryption.modelPrim.tag [1, 2] (List.replicate 24 0) (List.replicate 32 0)
            ++ Encryption.modelPrim.cipher [1, 2] (List.replicate 24 0) (List.replicate 32 0))) ∧
    (Encryption.modelPrim.cipher [1, 2] (List.replicate 24 0) (List.replicate 32 0)).length
      = ([1, 2] : Bytes).length ∧
    (Encryption.modelPrim.tag [1, 2] (List.replicate 24 0) (List.replicate 32 0)).length
      = Encryption.crypto_secretbox_MACBYTES ∧
    ((List.replicate 24 0)
        ++ (Encryption.modelPrim.tag [1, 2] (List.replicate 24 0) (List.replicate 32 0)
          ++ Encryption.modelPrim.cipher [1, 2] (List.replicate 24 0) (List.replicate 32 0))).length
      = Encryption.crypto_secretbox_NONCEBYTES
        + (Encryption.crypto_secretbox_MACBYTES + ([1, 2] : Bytes).length)) :=
  ⟨by decide, by decide,
    encrypt_envelope_layout Encryption.modelPrim (List.replicate 24 0) [1, 2]
      (List.replicate 32 0) (by decide) (by decide)⟩

/-- C5 counterexample: the envelope is not nonce ‖ ciphertext ‖ tag — at a
concrete plaintext the byte at the tag position differs from the byte the
claimed layout puts there. -/
theorem encrypt_layout_counterexample :
    Encryption.EncryptAndAuthenticate Encryption.modelPrim true
      (List.replicate 24 1) [1] (List.replicate 32 2)
      ≠ .ok ((List.replicate 24 1)
          ++ (Encryption.modelPrim.cipher [1] (List.replicate 24 1) (List.replicate 32 2)
            ++ Encryption.modelPrim.tag [1] (List.replicate 24 1) (List.replicate 32 2))) := by
  decide

theorem waitLoop_all_ok {ε : Type} (ts : List (Except ε Unit))
    (h : ∀ t ∈ ts, t = .ok ()) : ThreadPool.waitLoop ts = .ok () := by
  induction ts with
  | nil => rfl
  | cons t rest ih =>
    have ht := h t (List.mem_cons_self t rest)
    subst ht
    exact ih (fun u hu => h u (List.mem_cons_of_mem _ hu))

theorem waitLoop_first_error {ε : Type} (pre : List (Except ε Unit)) (e : ε)
    (post : List (Except ε Unit)) (h : ∀ t ∈ pre, t = .ok ()) :
    ThreadPool.waitLoop (pre ++ .error e :: post) = .error e := by
  induction pre with
  | nil => rfl
  | cons t rest ih =>
    have ht := h t (List.mem_cons_self t rest)
    subst ht
    exact ih (fun u hu => h u (List.mem_cons_of_mem _ hu))

/-- C2 (amended): `WaitForAll` gets every task in submission order.  When
every submitted job succeeded it returns normally and clears the pending
set; when some job failed, the first failure's error is rethrown out of
`WaitForAll` — not returned as a per-task outcome — and the pending set is
left uncleared.  No outcome list is produced in either case. -/
theorem waitForAll_outcomes {ε : Type} (ts : List (Except ε Unit)) :
    ((∀ t ∈ ts, t = .ok ()) → ThreadPool.WaitForAll ts = (.ok (), [])) ∧
    (∀ pre e post, ts = pre ++ .error e :: post → (∀ t ∈ pre, t = .ok ()) →
      ThreadPool.WaitForAll ts = (.error e, ts)) := by
  constructor
  · intro h
    unfold ThreadPool.WaitForAll
    rw [waitLoop_all_ok ts h]
  · intro pre e post hts hpre
    unfold ThreadPool.WaitForAll
    rw [hts, waitLoop_first_error pre e post hpre]

/-- C2 witness: the amended behavior evaluated on one failing task and on
the empty pending set. -/
theorem waitForAll_outcomes_witness :
    ThreadPool.WaitForAll [Except.error (7 : Nat)]
      = (.error 7, [Except.error 7]) ∧
    ThreadPool.WaitForAll ([] : List (Except Nat Unit)) = (.ok (), []) :=
  ⟨(waitForAll_outcomes [Except.error (7 : Nat)]).2 [] 7 [] rfl (by simp),
    (waitForAll_outcomes ([] : List (Except Nat Unit))).1 (by simp)⟩

/-- C2 counterexample: with one submitted failing job, `WaitForAll` rethrows
the job's error instead of returning an outcome list, and the pending task
set is NOT empty afterwards — `tasks.clear()` is never reached. -/
theorem waitForAll_pending_counterexample :
    (ThreadPool.WaitForAll [Except.error (7 : Nat)]).1 = .error 7 ∧
    (ThreadPool.WaitForAll [Except.error (7 : Nat)]).2 ≠ [] := by
  constructor <;> decide

/-- C1 (amended): every run exits with status zero — the failure paths too.
A failure escaping the try block is caught and reported with its
description on stderr (and only then), but `main` falls through to
`return 0` on all paths, so the exit status never distinguishes failure
from success. -/
theorem main_exit_zero (env : Env) (P : Encryption.SecretboxPrim)
    (nonce : Bytes) (rec : Record) (db0 : List (Bytes × Bytes)) :
    (runMain env P nonce rec db0).exitCode = 0 ∧
    ((runMain env P nonce rec db0).stderrLines ≠ [] ↔
      (mainBody env P nonce rec db0).outcome.isOk = false) := by
  cases h : (mainBody env P nonce rec db0).outcome with
  | ok u => simp [runMain, h, Except.isOk, Except.toBool]
  | error e => simp [runMain, h, Except.isOk, Except.toBool]

/-- C1 counterexample: a run whose configuration load fails reports the
failure on stderr yet still exits with status zero, where the claim
requires a non-zero status. -/
theorem main_failure_exit_counterexample :
    (runMain ⟨false, true, true, true, true, true, true, true, true⟩
      Encryption.modelPrim (List.replicate 24 0) sampleRecord []).exitCode = 0 ∧
    (mainBody ⟨false, true, true, true, true, true, true, true, true⟩
      Encryption.modelPrim (List.replicate 24 0) sampleRecord []).outcome.isOk = false ∧
    (runMain ⟨false, true, true, true, true, true, true, true, true⟩
      Encryption.modelPrim (List.replicate 24 0) sampleRecord []).stderrLines ≠ [] := by
  refine ⟨rfl, rfl, by simp [runMain, mainBody]⟩

/-- C6 (amended): the pipeline performs no record validation: for every
record — the fields may all be empty — the run under a healthy environment
proceeds through encryption and storage and completes successfully; no
`InvalidRecord` failure is ever produced. -/
theorem pipeline_no_validation (P : Encryption.SecretboxPrim) (nonce : Bytes)
    (rec : Record) (db0 : List (Bytes × Bytes)) :
    (mainBody goodEnv P nonce rec db0).outcome = .ok () ∧
    Ev.encrypted ∈ (mainBody goodEnv P nonce rec db0).trace ∧
    Ev.storePut ∈ (mainBody goodEnv P nonce rec db0).trace := by
  simp [mainBody, goodEnv, Encryption.EncryptAndAuthenticate, LocalStorage.Store,
    ThreadPool.AddTask, ThreadPool.WaitForAll, ThreadPool.waitLoop]

/-- C6 counterexample: a record with empty `product_id` and `timestamp` is
not rejected: the run encrypts it, stores the envelope, and reports
success instead of failing with `invalidRecord`. -/
theorem pipeline_empty_record_counterexample :
    (mainBody goodEnv Encryption.modelPrim (List.replicate 24 0)
      ⟨"", "", "", ""⟩ []).outcome = .ok () ∧
    (mainBody goodEnv Encryption.modelPrim (List.replicate 24 0)
      ⟨"", "", "", ""⟩ []).outcome ≠ .error .invalidRecord ∧
    Ev.encrypted ∈ (mainBody goodEnv Encryption.modelPrim (List.replicate 24 0)
      ⟨"", "", "", ""⟩ []).trace ∧
    Ev.storePut ∈ (mainBody goodEnv Encryption.modelPrim (List.replicate 24 0)
      ⟨"", "", "", ""⟩ []).trace := by
  refine ⟨rfl, by decide, by decide, by decide⟩

/-- C7: in every run, the local `Store` of the envelope completes before the
replication job is submitted (a definitive store failure means no
submission happens at all), `WaitForAll` completes before the store is
closed, and whenever the store is closed the pending task set is already
empty. -/
theorem pipeline_ordering (env : Env) (P : Encryption.SecretboxPrim)
    (nonce : Bytes) (rec : Record) (db0 : List (Bytes × Bytes)) :
    occursBefore .storePut .submit (mainBody env P nonce rec db0).trace ∧
    occursBefore .waitAll .closedDb (mainBody env P nonce rec db0).trace ∧
    (Ev.closedDb ∈ (mainBody env P nonce rec db0).trace →
      (mainBody env P nonce rec db0).pending = []) := by
  obtain ⟨c, hd, od, tb, he, so, sp, ss, pb⟩ := env
  cases c <;> cases hd <;> cases od <;> cases tb <;> cases he <;>
    cases so <;> cases sp <;> cases ss <;> cases pb <;>
    (simp [mainBody, Encryption.EncryptAndAuthenticate, LocalStorage.Store,
      ThreadPool.AddTask, ThreadPool.WaitForAll, ThreadPool.waitLoop,
      occursBefore, eventsBefore]
     try decide)
